import Mathlib

/-!
Shallow embedding of the gait-analysis services of this repository:
the knee/hip `ROMCalculator`, the `AnkleROMCalculator`, the
`GaitCycleDetector` (IC-event pairing, cycle extraction, resampling,
normalization) and the `GaitPhaseDetector` phase catalog.

JavaScript numbers are modelled as exact rationals (`ℚ`); the places
where the source can produce `NaN` (division by zero, out-of-bounds
indexing) are modelled with `Option`, `none` standing for `NaN`.
`Math.round(x * 10) / 10` is `round10`; `Math.floor(n * 0.95)` on a
natural `n` is natural division `n * 19 / 20`.
-/

/-- JS `Math.round`: round half toward positive infinity. -/
def jsRound (q : ℚ) : ℤ := ⌊q + 1/2⌋

/-- `Math.round(x * 10) / 10`: round to one decimal place, as used throughout the source. -/
def round10 (q : ℚ) : ℚ := (jsRound (q * 10) : ℚ) / 10

/-- JS `Math.max(...l)`; every call site in the embedded code passes a nonempty list. -/
def jsMax : List ℚ → ℚ
  | [] => 0
  | x :: xs => xs.foldl max x

/-- JS `Math.min(...l)`; every call site in the embedded code passes a nonempty list. -/
def jsMin : List ℚ → ℚ
  | [] => 0
  | x :: xs => xs.foldl min x

/-- JS `Array.prototype.slice(a, b)` for `0 ≤ a ≤ b`. -/
def jsSlice (l : List ℚ) (a b : ℕ) : List ℚ := (l.drop a).take (b - a)

/-- `ROMResult.method`: which estimation path produced the result. -/
inductive ROMMethod
  | peak_detection
  | percentile_fallback
deriving DecidableEq, Repr

/-- `ROMResult` of `ROMCalculator` (part_007). -/
structure ROMResult where
  anatomicalZero : ℚ
  maxFlexion : ℚ
  maxExtension : ℚ
  totalROM : ℚ
  method : ROMMethod
  confidence : ℚ
deriving DecidableEq, Repr

/-- `PeakPoint.type` of `ROMCalculator.findPeaks`. -/
inductive PeakType
  | flexion
  | extension
deriving DecidableEq, Repr

/-- `PeakPoint` of `ROMCalculator.findPeaks`. -/
structure PeakPoint where
  index : ℕ
  value : ℚ
  type : PeakType
  confidence : ℚ
deriving DecidableEq, Repr

/-- `ROMCalculator.calculateAnatomicalZero`: mean of the first
`min(frameCount, length)` samples rounded to one decimal; `0` for an empty list. -/
def calculateAnatomicalZero (angles : List ℚ) (frameCount : ℕ := 15) : ℚ :=
  let initialFrames := angles.take (min frameCount angles.length)
  if initialFrames.length = 0 then 0
  else round10 (initialFrames.sum / initialFrames.length)

/-- The `windowSize = 3` constant of `ROMCalculator.findPeaks`. -/
def windowSize : ℕ := 3

/-- `ROMCalculator.calculatePeakConfidence`: how far the peak stands out
from the `w` samples on each side, capped at `1` (10° counts as a full peak). -/
def calculatePeakConfidence (angles : List ℚ) (peakIndex w : ℕ) : ℚ :=
  let peak := angles.getD peakIndex 0
  let before := jsSlice angles (peakIndex - w) peakIndex
  let after := jsSlice angles (peakIndex + 1) (peakIndex + w + 1)
  let beforeDiff := |peak - jsMax before|
  let afterDiff := |peak - jsMax after|
  let avgDiff := (beforeDiff + afterDiff) / 2
  min (avgDiff / 10) 1

/-- `ROMCalculator.findPeaks`: local maxima above / minima below the anatomical
zero, scanning `i` from `windowSize` to `length - windowSize - 1`. -/
def findPeaks (angles : List ℚ) (anatomicalZero : ℚ) : List PeakPoint :=
  (List.range' windowSize (angles.length - windowSize - windowSize)).filterMap fun i =>
    let current := angles.getD i 0
    let before := jsSlice angles (i - windowSize) i
    let after := jsSlice angles (i + 1) (i + windowSize + 1)
    let isFlexionPeak := decide (anatomicalZero < current) &&
      before.all (fun v => decide (v ≤ current)) &&
      after.all (fun v => decide (v ≤ current))
    let isExtensionPeak := decide (current < anatomicalZero) &&
      before.all (fun v => decide (current ≤ v)) &&
      after.all (fun v => decide (current ≤ v))
    if isFlexionPeak then
      some ⟨i, current, PeakType.flexion, calculatePeakConfidence angles i windowSize⟩
    else if isExtensionPeak then
      some ⟨i, current, PeakType.extension, calculatePeakConfidence angles i windowSize⟩
    else none

/-- `ROMCalculator.calculatePercentileROM`: 95th/5th percentile of the sorted
series as the two bounds, fixed confidence `0.7`.
`Math.floor(length * 0.95)` is the natural division `length * 19 / 20`. -/
def calculatePercentileROM (angles : List ℚ) (anatomicalZero : ℚ) : ROMResult :=
  let sorted := angles.mergeSort (fun a b => decide (a ≤ b))
  let percentile95 := sorted.getD (angles.length * 19 / 20) 0
  let percentile5 := sorted.getD (angles.length / 20) 0
  { anatomicalZero := anatomicalZero
    maxFlexion := round10 percentile95
    maxExtension := round10 percentile5
    totalROM := round10 (percentile95 - percentile5)
    method := ROMMethod.percentile_fallback
    confidence := 7/10 }

/-- The `peaks.filter(p => p.type === 'flexion')` step of `ROMCalculator.calculatePeakROM`. -/
def flexionPeaksOf (angles : List ℚ) (z : ℚ) : List PeakPoint :=
  (findPeaks angles z).filter (fun p => decide (p.type = PeakType.flexion))

/-- The `peaks.filter(p => p.type === 'extension')` step of `ROMCalculator.calculatePeakROM`. -/
def extensionPeaksOf (angles : List ℚ) (z : ℚ) : List PeakPoint :=
  (findPeaks angles z).filter (fun p => decide (p.type = PeakType.extension))

/-- The average peak confidence of `ROMCalculator.calculatePeakROM`
(`0` when no peaks were found). -/
def avgPeakConfidence (angles : List ℚ) (z : ℚ) : ℚ :=
  let peaks := findPeaks angles z
  if peaks.length = 0 then 0
  else (peaks.map PeakPoint.confidence).sum / peaks.length

/-- `ROMCalculator.calculatePeakROM`: peak detection when at least one flexion
peak, at least one extension peak and average confidence above `0.3`;
otherwise the percentile fallback. -/
def calculatePeakROM (angles : List ℚ) (anatomicalZero : ℚ) : ROMResult :=
  let flexionPeaks := flexionPeaksOf angles anatomicalZero
  let extensionPeaks := extensionPeaksOf angles anatomicalZero
  let avgConfidence := avgPeakConfidence angles anatomicalZero
  if 1 ≤ flexionPeaks.length ∧ 1 ≤ extensionPeaks.length ∧ 3/10 < avgConfidence then
    let maxFlexion := jsMax (flexionPeaks.map PeakPoint.value)
    let maxExtension := jsMin (extensionPeaks.map PeakPoint.value)
    { anatomicalZero := anatomicalZero
      maxFlexion := round10 maxFlexion
      maxExtension := round10 maxExtension
      totalROM := round10 (maxFlexion - maxExtension)
      method := ROMMethod.peak_detection
      confidence := min avgConfidence (19/20) }
  else calculatePercentileROM angles anatomicalZero

/-- `ROMCalculator.calculateLegROM`: all-zero result for an empty series, else
anatomical zero from the first 15 samples followed by `calculatePeakROM`. -/
def calculateLegROM (angles : List ℚ) : ROMResult :=
  if angles.length = 0 then
    { anatomicalZero := 0
      maxFlexion := 0
      maxExtension := 0
      totalROM := 0
      method := ROMMethod.percentile_fallback
      confidence := 0 }
  else
    calculatePeakROM angles (calculateAnatomicalZero angles)

/-- `ROMAnalysis.dataQuality` buckets. -/
inductive DataQuality
  | excellent
  | good
  | fair
  | poor
deriving DecidableEq, Repr

/-- `ROMAnalysis` of `ROMCalculator.calculateBilateralROM`. -/
structure ROMAnalysis where
  left : ROMResult
  right : ROMResult
  asymmetry : ℚ
  averageROM : ℚ
  dataQuality : DataQuality
deriving DecidableEq, Repr

/-- `ROMCalculator.calculateBilateralROM`: per-leg results, absolute ROM
difference, average ROM, and a quality bucket from confidence and asymmetry. -/
def calculateBilateralROM (leftAngles rightAngles : List ℚ) : ROMAnalysis :=
  let leftROM := calculateLegROM leftAngles
  let rightROM := calculateLegROM rightAngles
  let asymmetry := |leftROM.totalROM - rightROM.totalROM|
  let averageROM := (leftROM.totalROM + rightROM.totalROM) / 2
  let avgConfidence := (leftROM.confidence + rightROM.confidence) / 2
  let dataQuality :=
    if 8/10 < avgConfidence ∧ asymmetry < 5 then DataQuality.excellent
    else if 6/10 < avgConfidence ∧ asymmetry < 10 then DataQuality.good
    else if 4/10 < avgConfidence ∧ asymmetry < 15 then DataQuality.fair
    else DataQuality.poor
  { left := leftROM
    right := rightROM
    asymmetry := round10 asymmetry
    averageROM := round10 averageROM
    dataQuality := dataQuality }

/-- The synthetic 101-point knee series of end-to-end scenario 1: flat `0`
except a peak of `70` at index 75 and a trough of `-5` at index 95. -/
def kneeScenarioSeries : List ℚ :=
  List.replicate 75 0 ++ [70] ++ List.replicate 19 0 ++ [-5] ++ List.replicate 5 0

/-- The all-zero 101-point series of end-to-end scenario 2. -/
def flatSeries : List ℚ := List.replicate 101 0

/-- Peak kind of `AnkleROMCalculator.findAnklePeaks`. -/
inductive AnkleMotion
  | dorsiflexion
  | plantarflexion
deriving DecidableEq, Repr

/-- A peak of `AnkleROMCalculator.findAnklePeaks`. -/
structure AnklePeak where
  value : ℚ
  type : AnkleMotion
deriving DecidableEq, Repr

/-- `AnkleROMCalculator.calculateAnatomicalZero`: mean of the first
`min(20, floor(length * 0.1))` frames, rounded to one decimal.  When the input
has fewer than 10 samples that slice is empty and JS computes `0 / 0 = NaN`;
the `NaN` is modelled as `none`. -/
def ankleAnatomicalZero (angles : List ℚ) : Option ℚ :=
  let initialFrames := min 20 (angles.length / 10)
  let stanceFrames := angles.take initialFrames
  if stanceFrames.length = 0 then none
  else some (round10 (stanceFrames.sum / stanceFrames.length))

/-- `AnkleROMCalculator.findAnklePeaks`: strict local maxima above the
anatomical zero (dorsiflexion) and strict local minima below it
(plantarflexion); when no peak is found, the 95th/5th percentile values of the
sorted series are pushed instead.  Only reached with a defined (non-`NaN`)
anatomical zero, so the series has at least 10 samples and the percentile
indices are in bounds. -/
def findAnklePeaks (angles : List ℚ) (anatomicalZero : ℚ) : List AnklePeak :=
  let innerIdx := List.range' 1 (angles.length - 1 - 1)
  let dorsi : List AnklePeak := innerIdx.filterMap fun i =>
    if angles.getD (i - 1) 0 < angles.getD i 0 ∧ angles.getD (i + 1) 0 < angles.getD i 0 ∧
        anatomicalZero < angles.getD i 0 then
      some ⟨angles.getD i 0, AnkleMotion.dorsiflexion⟩
    else none
  let plantar : List AnklePeak := innerIdx.filterMap fun i =>
    if angles.getD i 0 < angles.getD (i - 1) 0 ∧ angles.getD i 0 < angles.getD (i + 1) 0 ∧
        angles.getD i 0 < anatomicalZero then
      some ⟨angles.getD i 0, AnkleMotion.plantarflexion⟩
    else none
  let peaks := dorsi ++ plantar
  if peaks.length = 0 then
    let sortedAngles := angles.mergeSort (fun a b => decide (a ≤ b))
    [⟨sortedAngles.getD (angles.length * 19 / 20) 0, AnkleMotion.dorsiflexion⟩,
     ⟨sortedAngles.getD (angles.length / 20) 0, AnkleMotion.plantarflexion⟩]
  else peaks

/-- The per-leg record of `AnkleROMCalculator.calculateAnkleROM`. -/
structure AnkleROM where
  maxDorsiflexion : ℚ
  maxPlantarflexion : ℚ
  totalROM : ℚ
deriving DecidableEq, Repr

/-- `AnkleROMCalculator.calculateAnkleROM`:
`totalROM = |maxDorsiflexion - zero| + |maxPlantarflexion - zero|`. -/
def calculateAnkleROM (peaks : List AnklePeak) (anatomicalZero : ℚ) : AnkleROM :=
  let dorsiflexionPeaks := peaks.filter (fun p => decide (p.type = AnkleMotion.dorsiflexion))
  let plantarflexionPeaks := peaks.filter (fun p => decide (p.type = AnkleMotion.plantarflexion))
  let maxDorsiflexion :=
    if 0 < dorsiflexionPeaks.length then jsMax (dorsiflexionPeaks.map AnklePeak.value)
    else anatomicalZero
  let maxPlantarflexion :=
    if 0 < plantarflexionPeaks.length then jsMin (plantarflexionPeaks.map AnklePeak.value)
    else anatomicalZero
  let totalROM := |maxDorsiflexion - anatomicalZero| + |maxPlantarflexion - anatomicalZero|
  { maxDorsiflexion := round10 maxDorsiflexion
    maxPlantarflexion := round10 maxPlantarflexion
    totalROM := round10 totalROM }

/-- One leg of `AnkleROMCalculator.calculateBilateralROM`: anatomical zero,
peaks, then the ROM record.  `none` models the `NaN`-contaminated result JS
produces when the anatomical zero is `NaN` (fewer than 10 samples): the
comparisons against `NaN` in the peak loops are all false, and
`totalROM = |maxD - NaN| + |maxP - NaN| = NaN`. -/
def ankleLegROM (angles : List ℚ) : Option AnkleROM :=
  (ankleAnatomicalZero angles).map fun z => calculateAnkleROM (findAnklePeaks angles z) z

/-- The `totalROM` field of a leg of the ankle analysis (`none` = `NaN`). -/
def ankleTotalROM (angles : List ℚ) : Option ℚ :=
  (ankleLegROM angles).map AnkleROM.totalROM

/-- Leg tag of the gait services. -/
inductive Leg
  | left
  | right
deriving DecidableEq, Repr

/-- `GaitEvent` of `GaitCycleDetector`; every event fed to
`extractGaitCycles` is an IC event, so the constant `type` field is omitted. -/
structure GaitEvent where
  frame : ℕ
  time : ℚ
  leg : Leg
deriving DecidableEq, Repr

/-- One sample of `GaitData`. -/
structure GaitData where
  frame : ℕ
  time : ℚ
  leftHip : ℚ
  rightHip : ℚ
  leftKnee : ℚ
  rightKnee : ℚ
  leftAnkle : ℚ
  rightAnkle : ℚ
  leftFootContact : Bool
  rightFootContact : Bool
deriving DecidableEq, Repr

/-- Default sample used for (never reached) out-of-bounds `data[i]` reads. -/
def defaultGaitData : GaitData :=
  { frame := 0, time := 0, leftHip := 0, rightHip := 0, leftKnee := 0,
    rightKnee := 0, leftAnkle := 0, rightAnkle := 0,
    leftFootContact := false, rightFootContact := false }

/-- `GaitCycle` of `GaitCycleDetector`. -/
structure GaitCycle where
  leg : Leg
  startFrame : ℕ
  endFrame : ℕ
  startTime : ℚ
  endTime : ℚ
  duration : ℚ
  frames : List ℕ
  hipAngles : List ℚ
  kneeAngles : List ℚ
  ankleAngles : List ℚ
deriving DecidableEq, Repr

/-- The leg-selected hip angle of a sample. -/
def hipOf (g : GaitData) : Leg → ℚ
  | Leg.left => g.leftHip
  | Leg.right => g.rightHip

/-- The leg-selected knee angle of a sample. -/
def kneeOf (g : GaitData) : Leg → ℚ
  | Leg.left => g.leftKnee
  | Leg.right => g.rightKnee

/-- The leg-selected ankle angle of a sample. -/
def ankleOf (g : GaitData) : Leg → ℚ
  | Leg.left => g.leftAnkle
  | Leg.right => g.rightAnkle

/-- `GaitCycleDetector.createGaitCycle`: `null` when the duration falls outside
`[0.8 s, 1.5 s]`, else the cycle with the angle sub-series copied from frames
`startFrame ≤ i ≤ endFrame` with `i < data.length`. -/
def createGaitCycle (data : List GaitData) (startEvent endEvent : GaitEvent)
    (leg : Leg) : Option GaitCycle :=
  let startFrame := startEvent.frame
  let endFrame := endEvent.frame
  let duration := endEvent.time - startEvent.time
  if duration < 4/5 ∨ 3/2 < duration then none
  else
    let idxs := List.range' startFrame (min (endFrame + 1) data.length - startFrame)
    some
      { leg := leg
        startFrame := startFrame
        endFrame := endFrame
        startTime := startEvent.time
        endTime := endEvent.time
        duration := duration
        frames := idxs
        hipAngles := idxs.map fun i => hipOf (data.getD i defaultGaitData) leg
        kneeAngles := idxs.map fun i => kneeOf (data.getD i defaultGaitData) leg
        ankleAngles := idxs.map fun i => ankleOf (data.getD i defaultGaitData) leg }

/-- The `icEvents.filter(e => e.leg === leg)` step of `extractGaitCycles`. -/
def icsFor (events : List GaitEvent) (leg : Leg) : List GaitEvent :=
  events.filter (fun e => decide (e.leg = leg))

/-- The consecutive pairs `(l[i], l[i+1])` scanned by `extractGaitCycles`. -/
def consecutivePairs {α : Type} (l : List α) : List (α × α) := l.zip l.tail

/-- `GaitCycleDetector.extractGaitCycles`: pair consecutive same-leg IC events
and keep the candidates `createGaitCycle` accepts, left leg first. -/
def extractGaitCycles (data : List GaitData) (icEvents : List GaitEvent) : List GaitCycle :=
  ((consecutivePairs (icsFor icEvents Leg.left)).filterMap fun se =>
    createGaitCycle data se.1 se.2 Leg.left) ++
  ((consecutivePairs (icsFor icEvents Leg.right)).filterMap fun se =>
    createGaitCycle data se.1 se.2 Leg.right)

/-- The body of the `resampleData` loop at output position `i`:
`index = i * step` with `step = (length - 1) / (targetPoints - 1)`; when
`index` lands on an integer the sample is copied unrounded, otherwise the two
neighbours are linearly interpolated and rounded to one decimal. -/
def resamplePoint (data : List ℚ) (targetPoints i : ℕ) : ℚ :=
  let step : ℚ := ((data.length : ℚ) - 1) / ((targetPoints : ℚ) - 1)
  let index : ℚ := (i : ℚ) * step
  let lowerIndex : ℤ := ⌊index⌋
  let upperIndex : ℤ := ⌈index⌉
  if lowerIndex = upperIndex then data.getD lowerIndex.toNat 0
  else
    let weight := index - (lowerIndex : ℚ)
    round10 (data.getD lowerIndex.toNat 0 * (1 - weight) +
      data.getD upperIndex.toNat 0 * weight)

/-- `GaitCycleDetector.resampleData`: linear interpolation onto `targetPoints`
equally spaced positions. -/
def resampleData (data : List ℚ) (targetPoints : ℕ) : List ℚ :=
  if data.length = 0 then []
  else if data.length = 1 then List.replicate targetPoints (data.headD 0)
  else (List.range targetPoints).map (resamplePoint data targetPoints)

/-- One entry of the result of `GaitCycleDetector.normalizeGaitCycles`. -/
structure NormalizedCycle where
  leg : Leg
  normalizedHip : List ℚ
  normalizedKnee : List ℚ
  normalizedAnkle : List ℚ
deriving DecidableEq, Repr

/-- `GaitCycleDetector.normalizeGaitCycles`: resample the three angle series
of every cycle to `pointsCount` points. -/
def normalizeGaitCycles (cycles : List GaitCycle) (pointsCount : ℕ := 101) :
    List NormalizedCycle :=
  cycles.map fun cycle =>
    { leg := cycle.leg
      normalizedHip := resampleData cycle.hipAngles pointsCount
      normalizedKnee := resampleData cycle.kneeAngles pointsCount
      normalizedAnkle := resampleData cycle.ankleAngles pointsCount }

/-- `GaitPhase` of `GaitPhaseDetector` (`abbrevName` is the source field
`abbreviation`). -/
structure GaitPhase where
  name : String
  abbrevName : String
  startPercent : ℚ
  endPercent : ℚ
  color : String
  description : String
deriving DecidableEq, Repr

/-- The Initial Contact entry of `GaitPhaseDetector.STANDARD_PHASES` ([0%, 2%]). -/
def initialContactPhase : GaitPhase :=
  { name := "Initial Contact", abbrevName := "IC", startPercent := 0, endPercent := 2,
    color := "#ef4444", description := "Heel strike - foot first contacts ground" }

/-- The Loading Response entry of `GaitPhaseDetector.STANDARD_PHASES` ([2%, 12%]). -/
def loadingResponsePhase : GaitPhase :=
  { name := "Loading Response", abbrevName := "LR", startPercent := 2, endPercent := 12,
    color := "#f97316", description := "Weight acceptance and shock absorption" }

/-- The Mid Stance entry of `GaitPhaseDetector.STANDARD_PHASES` ([12%, 31%]). -/
def midStancePhase : GaitPhase :=
  { name := "Mid Stance", abbrevName := "MSt", startPercent := 12, endPercent := 31,
    color := "#eab308", description := "Single limb support over the foot" }

/-- The Terminal Stance entry of `GaitPhaseDetector.STANDARD_PHASES` ([31%, 50%]). -/
def terminalStancePhase : GaitPhase :=
  { name := "Terminal Stance", abbrevName := "TSt", startPercent := 31, endPercent := 50,
    color := "#22c55e", description := "Heel off and weight shift forward" }

/-- The Pre-Swing entry of `GaitPhaseDetector.STANDARD_PHASES` ([50%, 62%]). -/
def preSwingPhase : GaitPhase :=
  { name := "Pre-Swing", abbrevName := "PSw", startPercent := 50, endPercent := 62,
    color := "#06b6d4", description := "Toe off preparation and double support" }

/-- The Initial Swing entry of `GaitPhaseDetector.STANDARD_PHASES` ([62%, 75%]). -/
def initialSwingPhase : GaitPhase :=
  { name := "Initial Swing", abbrevName := "ISw", startPercent := 62, endPercent := 75,
    color := "#3b82f6", description := "Foot clearance and acceleration" }

/-- The Mid Swing entry of `GaitPhaseDetector.STANDARD_PHASES` ([75%, 87%]). -/
def midSwingPhase : GaitPhase :=
  { name := "Mid Swing", abbrevName := "MSw", startPercent := 75, endPercent := 87,
    color := "#8b5cf6", description := "Limb advancement to vertical" }

/-- The Terminal Swing entry of `GaitPhaseDetector.STANDARD_PHASES` ([87%, 100%]). -/
def terminalSwingPhase : GaitPhase :=
  { name := "Terminal Swing", abbrevName := "TSw", startPercent := 87, endPercent := 100,
    color := "#ec4899", description := "Deceleration and preparation for contact" }

/-- `GaitPhaseDetector.STANDARD_PHASES`: the 8-phase catalog. -/
def STANDARD_PHASES : List GaitPhase :=
  [initialContactPhase, loadingResponsePhase, midStancePhase, terminalStancePhase,
   preSwingPhase, initialSwingPhase, midSwingPhase, terminalSwingPhase]

/-- The membership test `phase.startPercent <= percent && percent <= phase.endPercent`
of `getPhaseAtPercent` (inclusive on both ends). -/
def phasePred (percent : ℚ) (phase : GaitPhase) : Bool :=
  decide (phase.startPercent ≤ percent) && decide (percent ≤ phase.endPercent)

/-- `GaitPhaseDetector.getPhaseAtPercent`: first catalog phase whose inclusive
interval `[startPercent, endPercent]` contains `percent`, else `null`. -/
def getPhaseAtPercent (percent : ℚ) : Option GaitPhase :=
  STANDARD_PHASES.find? (phasePred percent)

/-- `phase.startPercent <= p && p <= phase.endPercent`, the (inclusive on both
ends) membership test of `getPhaseAtPercent`. -/
def phaseContains (phase : GaitPhase) (p : ℚ) : Prop :=
  phase.startPercent ≤ p ∧ p ≤ phase.endPercent

/-- An 11-point series whose only peaks rise 1° above their surroundings:
one flexion peak at index 3 and one extension peak at index 7, each of
confidence `0.1`, so the average confidence `0.1` fails the `> 0.3` gate. -/
def lowConfidenceSeries : List ℚ := [0, 0, 0, 1, 0, 0, 0, -1, 0, 0, 0]

/-- The gait cycle `createGaitCycle` builds from IC events at frames 0 and 110
(times 0 s and 1.1 s) over an empty data array: accepted (duration 1.1 s) but
with empty angle sub-series. -/
def emptyAngleCycle : GaitCycle :=
  { leg := Leg.left
    startFrame := 0
    endFrame := 110
    startTime := 0
    endTime := 11/10
    duration := 11/10
    frames := []
    hipAngles := []
    kneeAngles := []
    ankleAngles := [] }

/-- A concrete accepted-duration cycle with two hip samples, one knee sample
and two ankle samples, used to instantiate the normalization theorems. -/
def smallCycle : GaitCycle :=
  { leg := Leg.right
    startFrame := 0
    endFrame := 1
    startTime := 0
    endTime := 1
    duration := 1
    frames := [0, 1]
    hipAngles := [1, 2]
    kneeAngles := [5]
    ankleAngles := [3, 4] }

/-! ### Helper lemmas -/

theorem foldl_max_mem (l : List ℚ) (a : ℚ) : l.foldl max a = a ∨ l.foldl max a ∈ l := by
  induction l generalizing a with
  | nil => exact Or.inl rfl
  | cons x xs ih =>
    simp only [List.foldl_cons]
    rcases ih (max a x) with h | h
    · rcases max_choice a x with hm | hm
      · exact Or.inl (by rw [h, hm])
      · exact Or.inr (by rw [h, hm]; exact List.mem_cons_self x xs)
    · exact Or.inr (List.mem_cons_of_mem _ h)

theorem foldl_min_mem (l : List ℚ) (a : ℚ) : l.foldl min a = a ∨ l.foldl min a ∈ l := by
  induction l generalizing a with
  | nil => exact Or.inl rfl
  | cons x xs ih =>
    simp only [List.foldl_cons]
    rcases ih (min a x) with h | h
    · rcases min_choice a x with hm | hm
      · exact Or.inl (by rw [h, hm])
      · exact Or.inr (by rw [h, hm]; exact List.mem_cons_self x xs)
    · exact Or.inr (List.mem_cons_of_mem _ h)

theorem jsMax_mem (l : List ℚ) (h : l ≠ []) : jsMax l ∈ l := by
  cases l with
  | nil => exact absurd rfl h
  | cons x xs =>
    rcases foldl_max_mem xs x with hm | hm
    · simp [jsMax, hm]
    · exact List.mem_cons_of_mem _ (by simpa [jsMax] using hm)

theorem jsMin_mem (l : List ℚ) (h : l ≠ []) : jsMin l ∈ l := by
  cases l with
  | nil => exact absurd rfl h
  | cons x xs =>
    rcases foldl_min_mem xs x with hm | hm
    · simp [jsMin, hm]
    · exact List.mem_cons_of_mem _ (by simpa [jsMin] using hm)

theorem round10_nonneg {q : ℚ} (h : 0 ≤ q) : 0 ≤ round10 q := by
  unfold round10 jsRound
  have h1 : (0 : ℤ) ≤ ⌊q * 10 + 1/2⌋ := by
    rw [Int.le_floor]
    push_cast
    linarith
  have h2 : (0 : ℚ) ≤ (⌊q * 10 + 1/2⌋ : ℚ) := by exact_mod_cast h1
  linarith


theorem mem_findPeaks_flexion {angles : List ℚ} {z : ℚ} {p : PeakPoint}
    (hp : p ∈ findPeaks angles z) (ht : p.type = PeakType.flexion) : z < p.value := by
  simp only [findPeaks, List.mem_filterMap] at hp
  obtain ⟨i, _, hbody⟩ := hp
  split_ifs at hbody with h1 h2
  · obtain rfl := Option.some_injective _ hbody
    have := (Bool.and_eq_true _ _).mp ((Bool.and_eq_true _ _).mp h1).1
    exact of_decide_eq_true this.1
  · obtain rfl := Option.some_injective _ hbody
    simp at ht

theorem mem_findPeaks_extension {angles : List ℚ} {z : ℚ} {p : PeakPoint}
    (hp : p ∈ findPeaks angles z) (ht : p.type = PeakType.extension) : p.value < z := by
  simp only [findPeaks, List.mem_filterMap] at hp
  obtain ⟨i, _, hbody⟩ := hp
  split_ifs at hbody with h1 h2
  · obtain rfl := Option.some_injective _ hbody
    simp at ht
  · obtain rfl := Option.some_injective _ hbody
    have := (Bool.and_eq_true _ _).mp ((Bool.and_eq_true _ _).mp h2).1
    exact of_decide_eq_true this.1

theorem flexionPeaksOf_value_gt {angles : List ℚ} {z : ℚ} {p : PeakPoint}
    (hp : p ∈ flexionPeaksOf angles z) : z < p.value := by
  rw [flexionPeaksOf, List.mem_filter] at hp
  exact mem_findPeaks_flexion hp.1 (of_decide_eq_true hp.2)

theorem extensionPeaksOf_value_lt {angles : List ℚ} {z : ℚ} {p : PeakPoint}
    (hp : p ∈ extensionPeaksOf angles z) : p.value < z := by
  rw [extensionPeaksOf, List.mem_filter] at hp
  exact mem_findPeaks_extension hp.1 (of_decide_eq_true hp.2)

theorem mergeSort_le_pairwise (l : List ℚ) :
    List.Pairwise (· ≤ ·) (l.mergeSort (fun a b => decide (a ≤ b))) := by
  have h := @List.sorted_mergeSort ℚ (fun a b => decide (a ≤ b))
    (fun a b c hab hbc => decide_eq_true (le_trans (of_decide_eq_true hab) (of_decide_eq_true hbc)))
    (fun a b => by rcases le_total a b with h | h <;> simp [h]) l
  exact h.imp fun hd => of_decide_eq_true hd

theorem getD_sorted_mono {l : List ℚ} (hs : List.Pairwise (· ≤ ·) l) {i j : ℕ}
    (hij : i ≤ j) (hj : j < l.length) : l.getD i 0 ≤ l.getD j 0 := by
  have hi : i < l.length := lt_of_le_of_lt hij hj
  rw [List.getD_eq_getElem?_getD, List.getD_eq_getElem?_getD,
    List.getElem?_eq_getElem hi, List.getElem?_eq_getElem hj]
  rcases lt_or_eq_of_le hij with hlt | rfl
  · exact List.pairwise_iff_get.mp hs ⟨i, hi⟩ ⟨j, hj⟩ hlt
  · simp

theorem percentileROM_totalROM_nonneg (angles : List ℚ) (z : ℚ) (h : angles ≠ []) :
    0 ≤ (calculatePercentileROM angles z).totalROM := by
  have hn : 1 ≤ angles.length := List.length_pos.mpr h
  have hlen : (angles.mergeSort (fun a b => decide (a ≤ b))).length = angles.length :=
    (List.mergeSort_perm angles _).length_eq
  have hi95 : angles.length * 19 / 20 < angles.length := by
    rw [Nat.div_lt_iff_lt_mul (by norm_num)]
    calc angles.length * 19 < angles.length * 20 := by omega
    _ = angles.length * 20 := rfl
  have hi5 : angles.length / 20 ≤ angles.length * 19 / 20 :=
    Nat.div_le_div_right (by omega)
  have hmono := getD_sorted_mono (mergeSort_le_pairwise angles) hi5 (by omega)
  simp only [calculatePercentileROM]
  exact round10_nonneg (by linarith)

theorem calculateLegROM_totalROM_nonneg (angles : List ℚ) :
    0 ≤ (calculateLegROM angles).totalROM := by
  unfold calculateLegROM
  split_ifs with h0
  · norm_num
  · have hne : angles ≠ [] := by
      intro h
      subst h
      simp at h0
    simp only [calculatePeakROM]
    split_ifs with hgate
    · obtain ⟨hfl, hex, -⟩ := hgate
      have hflne : (flexionPeaksOf angles (calculateAnatomicalZero angles)).map PeakPoint.value ≠ [] := by
        intro h
        rw [List.map_eq_nil] at h
        rw [h] at hfl
        simp at hfl
      have hexne : (extensionPeaksOf angles (calculateAnatomicalZero angles)).map PeakPoint.value ≠ [] := by
        intro h
        rw [List.map_eq_nil] at h
        rw [h] at hex
        simp at hex
      obtain ⟨pf, hpf, hpfv⟩ := List.mem_map.mp (jsMax_mem _ hflne)
      obtain ⟨pe, hpe, hpev⟩ := List.mem_map.mp (jsMin_mem _ hexne)
      have h1 := flexionPeaksOf_value_gt hpf
      have h2 := extensionPeaksOf_value_lt hpe
      refine round10_nonneg ?_
      rw [← hpfv, ← hpev] at *
      linarith
    · exact percentileROM_totalROM_nonneg _ _ hne

theorem ankleTotalROM_some_nonneg (angles : List ℚ) (r : ℚ)
    (h : ankleTotalROM angles = some r) : 0 ≤ r := by
  unfold ankleTotalROM ankleLegROM at h
  cases hz : ankleAnatomicalZero angles with
  | none => rw [hz] at h; simp at h
  | some z =>
    rw [hz] at h
    have hr : r = (calculateAnkleROM (findAnklePeaks angles z) z).totalROM := by
      simpa using h.symm
    rw [hr]
    exact round10_nonneg (add_nonneg (abs_nonneg _) (abs_nonneg _))

/-! ### Claim theorems: ROM calculators -/

/-- C1 counterexample: on `lowConfidenceSeries` with anatomical zero 0 there is
at least one flexion peak and at least one extension peak, yet the result is
the percentile fallback, not peak detection, because the average peak
confidence `0.1` fails the `> 0.3` gate. -/
theorem calculatePeakROM_falls_back_despite_both_peaks :
    1 ≤ (flexionPeaksOf lowConfidenceSeries 0).length ∧
    1 ≤ (extensionPeaksOf lowConfidenceSeries 0).length ∧
    avgPeakConfidence lowConfidenceSeries 0 = 1/10 ∧
    (calculatePeakROM lowConfidenceSeries 0).method = ROMMethod.percentile_fallback ∧
    (calculatePeakROM lowConfidenceSeries 0).method ≠ ROMMethod.peak_detection := by
  with_unfolding_all decide

/-- C1 (amended): the peak-detection result is used exactly when at least one
flexion peak, at least one extension peak AND average peak confidence above
0.3 are present; then `maxFlexion`/`maxExtension` are the max flexion-peak /
min extension-peak values (rounded to one decimal) and `totalROM` their
difference.  In every other case (either peak type absent, or confidence gate
failed) the result is the percentile fallback, whose method tag is
`percentile_fallback` and whose confidence is the fixed `0.7`. -/
theorem calculatePeakROM_gate (angles : List ℚ) (z : ℚ) :
    (1 ≤ (flexionPeaksOf angles z).length → 1 ≤ (extensionPeaksOf angles z).length →
      3/10 < avgPeakConfidence angles z →
      calculatePeakROM angles z =
        { anatomicalZero := z
          maxFlexion := round10 (jsMax ((flexionPeaksOf angles z).map PeakPoint.value))
          maxExtension := round10 (jsMin ((extensionPeaksOf angles z).map PeakPoint.value))
          totalROM := round10 (jsMax ((flexionPeaksOf angles z).map PeakPoint.value) -
            jsMin ((extensionPeaksOf angles z).map PeakPoint.value))
          method := ROMMethod.peak_detection
          confidence := min (avgPeakConfidence angles z) (19/20) }) ∧
    (¬(1 ≤ (flexionPeaksOf angles z).length ∧ 1 ≤ (extensionPeaksOf angles z).length ∧
        3/10 < avgPeakConfidence angles z) →
      calculatePeakROM angles z = calculatePercentileROM angles z) ∧
    (calculatePercentileROM angles z).method = ROMMethod.percentile_fallback ∧
    (calculatePercentileROM angles z).confidence = 7/10 := by
  refine ⟨fun hfl hex hconf => ?_, fun hneg => ?_, rfl, rfl⟩
  · simp only [calculatePeakROM]
    rw [if_pos ⟨hfl, hex, hconf⟩]
  · simp only [calculatePeakROM]
    rw [if_neg hneg]

/-- C1 witness: the gate of `calculatePeakROM_gate` is satisfied on the
synthetic knee series, yielding the peak-detection record. -/
theorem calculatePeakROM_gate_witness :
    calculatePeakROM kneeScenarioSeries 0 =
      { anatomicalZero := 0
        maxFlexion := round10 (jsMax ((flexionPeaksOf kneeScenarioSeries 0).map PeakPoint.value))
        maxExtension := round10 (jsMin ((extensionPeaksOf kneeScenarioSeries 0).map PeakPoint.value))
        totalROM := round10 (jsMax ((flexionPeaksOf kneeScenarioSeries 0).map PeakPoint.value) -
          jsMin ((extensionPeaksOf kneeScenarioSeries 0).map PeakPoint.value))
        method := ROMMethod.peak_detection
        confidence := min (avgPeakConfidence kneeScenarioSeries 0) (19/20) } :=
  (calculatePeakROM_gate kneeScenarioSeries 0).1
    (by with_unfolding_all decide) (by with_unfolding_all decide)
    (by with_unfolding_all decide)

/-- C2: the 101-point series that is 0 everywhere except 70 at index 75 and
-5 at index 95 yields `maxFlexion = 70`, `maxExtension = -5`, `totalROM = 75`
and method `peak_detection` (anatomical zero 0 from the first 15 samples,
average peak confidence 0.75). -/
theorem calculateLegROM_scenario_one :
    calculateLegROM kneeScenarioSeries =
      { anatomicalZero := 0
        maxFlexion := 70
        maxExtension := -5
        totalROM := 75
        method := ROMMethod.peak_detection
        confidence := 3/4 } := by
  with_unfolding_all decide

/-- C3 counterexample: on two identical all-zero 101-point series the data
quality is NOT `poor` and the per-leg confidence is NOT 0: the percentile
fallback carries a fixed confidence of 0.7. -/
theorem flat_series_quality_not_poor :
    (calculateBilateralROM flatSeries flatSeries).dataQuality ≠ DataQuality.poor ∧
    (calculateBilateralROM flatSeries flatSeries).left.confidence ≠ 0 := by
  with_unfolding_all decide

/-- C3 (amended): two identical all-zero 101-point series give asymmetry 0 and
average ROM 0, but the data quality bucket is `good`, because each leg's
percentile-fallback result carries the fixed confidence 0.7 (> 0.6). -/
theorem flat_series_bilateral_rom :
    calculateBilateralROM flatSeries flatSeries =
      { left :=
          { anatomicalZero := 0
            maxFlexion := 0
            maxExtension := 0
            totalROM := 0
            method := ROMMethod.percentile_fallback
            confidence := 7/10 }
        right :=
          { anatomicalZero := 0
            maxFlexion := 0
            maxExtension := 0
            totalROM := 0
            method := ROMMethod.percentile_fallback
            confidence := 7/10 }
        asymmetry := 0
        averageROM := 0
        dataQuality := DataQuality.good } := by
  with_unfolding_all decide

/-- C4: the knee/hip `calculateLegROM` never reports a negative `totalROM`
(any input, including empty and single-element arrays), and whenever the
ankle calculator's `totalROM` is an actual number it is nonnegative; but on a
single-element array the ankle `totalROM` is `NaN` (modelled `none`), because
`calculateAnatomicalZero` takes the mean of zero stance frames. -/
theorem totalROM_nonneg :
    (∀ angles : List ℚ, 0 ≤ (calculateLegROM angles).totalROM) ∧
    (∀ (angles : List ℚ) (r : ℚ), ankleTotalROM angles = some r → 0 ≤ r) ∧
    ankleTotalROM [5] = none :=
  ⟨calculateLegROM_totalROM_nonneg, ankleTotalROM_some_nonneg, rfl⟩

/-- C4 witness: the leg bound applied at `[5]`, and the ankle bound applied at
ten zero samples, whose `totalROM` evaluates to `some 0`. -/
theorem totalROM_nonneg_witness :
    0 ≤ (calculateLegROM [5]).totalROM ∧ (0 : ℚ) ≤ 0 :=
  ⟨totalROM_nonneg.1 [5],
   totalROM_nonneg.2.1 (List.replicate 10 0) 0 (by with_unfolding_all decide)⟩

/-- C6: the generic calculator degrades gracefully — the empty series gives
the all-zero `ROMResult` with confidence 0 and method `percentile_fallback` —
but the ankle calculator does not: for the empty series and for any series
shorter than 10 samples its anatomical zero is `0/0 = NaN` and the leg result
(including `totalROM`) is `NaN` (modelled `none`). -/
theorem empty_input_behavior :
    calculateLegROM [] =
      { anatomicalZero := 0
        maxFlexion := 0
        maxExtension := 0
        totalROM := 0
        method := ROMMethod.percentile_fallback
        confidence := 0 } ∧
    ankleLegROM [] = none ∧
    ankleTotalROM [1, 2, 3] = none := by
  with_unfolding_all decide

/-- C7 counterexample: a gait cycle with empty angle arrays — exactly what
`createGaitCycle` builds from IC events at frames 0 and 110 over an empty
data array — normalizes to angle arrays of 0 entries, not `pointsCount`. -/
theorem normalize_empty_cycle_zero_entries :
    ((normalizeGaitCycles [emptyAngleCycle] 101).map fun nc => nc.normalizedHip.length) = [0] ∧
    createGaitCycle [] ⟨0, 0, Leg.left⟩ ⟨110, 11/10, Leg.left⟩ Leg.left = some emptyAngleCycle ∧
    (0 : ℕ) ≠ 101 := by
  with_unfolding_all decide

/-! ### Resampling lemmas -/

theorem resampleData_nil (n : ℕ) : resampleData [] n = [] := rfl

theorem resampleData_single (x : ℚ) (n : ℕ) :
    resampleData [x] n = List.replicate n x := rfl

theorem resampleData_length (d : List ℚ) (n : ℕ) (hd : d ≠ []) :
    (resampleData d n).length = n := by
  rcases d with - | ⟨x, d'⟩
  · exact absurd rfl hd
  · rcases d' with - | ⟨y, tl⟩
    · rw [resampleData_single, List.length_replicate]
    · unfold resampleData
      rw [if_neg (by simp), if_neg (by simp), List.length_map, List.length_range]

theorem map_getD_range (l : List ℚ) :
    (List.range l.length).map (fun i => l.getD i 0) = l := by
  induction l with
  | nil => simp
  | cons x xs ih =>
    rw [List.length_cons, List.range_succ_eq_map, List.map_cons, List.map_map]
    simp only [Function.comp_def, List.getD_cons_zero, List.getD_cons_succ]
    rw [ih]

theorem resampleData_of_length_eq (d : List ℚ) (n : ℕ) (h2 : 2 ≤ n)
    (hlen : d.length = n) : resampleData d n = d := by
  have h0 : ¬d.length = 0 := by omega
  have h1 : ¬d.length = 1 := by omega
  have hne : (n : ℚ) - 1 ≠ 0 := by
    have h2q : (2 : ℚ) ≤ (n : ℚ) := by exact_mod_cast h2
    linarith
  have hstep : ((d.length : ℚ) - 1) / ((n : ℚ) - 1) = 1 := by
    rw [hlen]
    field_simp
  unfold resampleData
  rw [if_neg h0, if_neg h1]
  trans (List.range n).map (fun i => d.getD i 0)
  · apply List.map_congr_left
    intro i hi
    simp only [resamplePoint, hstep, mul_one, Int.floor_natCast, Int.ceil_natCast,
      Int.toNat_natCast, if_pos rfl, if_true]
  · rw [← hlen, map_getD_range]

/-! ### Claim theorems: gait cycle normalization and resampling -/

/-- C7 (amended): every cycle with nonempty angle sub-series normalizes to
arrays of exactly `pointsCount` entries, and a single-sample sub-series
broadcasts its one value to all `pointsCount` output points. -/
theorem normalizeGaitCycles_pointsCount (cycles : List GaitCycle) (pointsCount : ℕ)
    (c : GaitCycle) (hc : c ∈ cycles) (hp : 2 ≤ pointsCount) :
    ∃ nc ∈ normalizeGaitCycles cycles pointsCount,
      nc.leg = c.leg ∧
      (c.hipAngles ≠ [] → nc.normalizedHip.length = pointsCount) ∧
      (c.kneeAngles ≠ [] → nc.normalizedKnee.length = pointsCount) ∧
      (c.ankleAngles ≠ [] → nc.normalizedAnkle.length = pointsCount) ∧
      (∀ x, c.hipAngles = [x] → nc.normalizedHip = List.replicate pointsCount x) ∧
      (∀ x, c.kneeAngles = [x] → nc.normalizedKnee = List.replicate pointsCount x) ∧
      (∀ x, c.ankleAngles = [x] → nc.normalizedAnkle = List.replicate pointsCount x) := by
  refine ⟨{ leg := c.leg
            normalizedHip := resampleData c.hipAngles pointsCount
            normalizedKnee := resampleData c.kneeAngles pointsCount
            normalizedAnkle := resampleData c.ankleAngles pointsCount }, ?_, rfl,
    fun h => resampleData_length _ _ h,
    fun h => resampleData_length _ _ h,
    fun h => resampleData_length _ _ h,
    fun x hx => by rw [hx]; exact resampleData_single x pointsCount,
    fun x hx => by rw [hx]; exact resampleData_single x pointsCount,
    fun x hx => by rw [hx]; exact resampleData_single x pointsCount⟩
  exact List.mem_map_of_mem _ hc

/-- C7 witness: the single-sample knee series of `smallCycle` broadcasts to 3
points and the two-sample hip series resamples to 3 points. -/
theorem normalizeGaitCycles_pointsCount_witness :
    ∃ nc ∈ normalizeGaitCycles [smallCycle] 3,
      nc.leg = smallCycle.leg ∧
      (smallCycle.hipAngles ≠ [] → nc.normalizedHip.length = 3) ∧
      (smallCycle.kneeAngles ≠ [] → nc.normalizedKnee.length = 3) ∧
      (smallCycle.ankleAngles ≠ [] → nc.normalizedAnkle.length = 3) ∧
      (∀ x, smallCycle.hipAngles = [x] → nc.normalizedHip = List.replicate 3 x) ∧
      (∀ x, smallCycle.kneeAngles = [x] → nc.normalizedKnee = List.replicate 3 x) ∧
      (∀ x, smallCycle.ankleAngles = [x] → nc.normalizedAnkle = List.replicate 3 x) :=
  normalizeGaitCycles_pointsCount [smallCycle] 3 smallCycle (List.mem_singleton.mpr rfl)
    (by omega)

/-- C9: resampling is idempotent at the same target length: a list whose
length already equals `targetPoints ≥ 2` is returned unchanged, and
re-resampling any resampled list at the same target changes nothing. -/
theorem resampleData_idempotent (d : List ℚ) (t : ℕ) (ht : 2 ≤ t) :
    (d.length = t → resampleData d t = d) ∧
    resampleData (resampleData d t) t = resampleData d t := by
  refine ⟨fun hlen => resampleData_of_length_eq d t ht hlen, ?_⟩
  rcases eq_or_ne d [] with rfl | hd
  · rfl
  · exact resampleData_of_length_eq _ _ ht (resampleData_length d t hd)

/-- C9 witness: a four-element list at target 4 is returned unchanged, and
re-resampling it is a no-op. -/
theorem resampleData_idempotent_witness :
    resampleData [1, 5, 2, 4] 4 = ([1, 5, 2, 4] : List ℚ) ∧
    resampleData (resampleData [1, 5, 2, 4] 4) 4 = resampleData [1, 5, 2, 4] 4 :=
  ⟨(resampleData_idempotent [1, 5, 2, 4] 4 (by omega)).1 rfl,
   (resampleData_idempotent [1, 5, 2, 4] 4 (by omega)).2⟩

/-! ### Claim theorems: gait cycle extraction -/

theorem get?_consecutivePairs {α : Type} (l : List α) (i : ℕ) (s e : α)
    (hs : l.get? i = some s) (he : l.get? (i + 1) = some e) :
    (s, e) ∈ consecutivePairs l := by
  induction l generalizing i with
  | nil => simp at hs
  | cons x xs ih =>
    cases xs with
    | nil =>
      rw [List.get?_cons_succ] at he
      simp at he
    | cons y ys =>
      cases i with
      | zero =>
        rw [List.get?_cons_zero] at hs
        obtain rfl : x = s := Option.some_injective _ hs
        rw [List.get?_cons_succ, List.get?_cons_zero] at he
        obtain rfl : y = e := Option.some_injective _ he
        exact List.mem_cons_self _ _
      | succ j =>
        rw [List.get?_cons_succ] at hs he
        exact List.mem_cons_of_mem _ (ih j hs he)

/-- C5: a candidate cycle built from two consecutive same-leg IC events is
accepted exactly when its duration `endTime - startTime` lies in
`[0.8 s, 1.5 s]`, and every accepted cycle appears in the output of
`extractGaitCycles`; a rejected pair contributes nothing (`createGaitCycle`
returns `none`). -/
theorem extractGaitCycles_duration_gate (data : List GaitData)
    (icEvents : List GaitEvent) (leg : Leg) (i : ℕ) (s e : GaitEvent)
    (hs : (icsFor icEvents leg).get? i = some s)
    (he : (icsFor icEvents leg).get? (i + 1) = some e) :
    ((createGaitCycle data s e leg).isSome ↔
      4/5 ≤ e.time - s.time ∧ e.time - s.time ≤ 3/2) ∧
    ∀ c, createGaitCycle data s e leg = some c → c ∈ extractGaitCycles data icEvents := by
  constructor
  · simp only [createGaitCycle]
    split_ifs with hcond
    · simp only [Option.isSome_none, Bool.false_eq_true, false_iff, not_and]
      intro hlo hhi
      rcases hcond with h | h <;> linarith
    · simp only [Option.isSome_some, true_iff]
      push_neg at hcond
      exact hcond
  · intro c hc
    unfold extractGaitCycles
    rw [List.mem_append]
    cases leg with
    | left =>
      left
      rw [List.mem_filterMap]
      exact ⟨(s, e), get?_consecutivePairs _ i s e hs he, hc⟩
    | right =>
      right
      rw [List.mem_filterMap]
      exact ⟨(s, e), get?_consecutivePairs _ i s e hs he, hc⟩

/-- C5 witness: IC events at frames 0 and 110 at 100 Hz (times 0 s and 1.1 s)
are consecutive left-leg events; 1.1 s lies in `[0.8, 1.5]`, so the candidate
is accepted and lands in the output. -/
theorem extractGaitCycles_duration_gate_witness :
    ((createGaitCycle [] ⟨0, 0, Leg.left⟩ ⟨110, 11/10, Leg.left⟩ Leg.left).isSome ↔
      4/5 ≤ (11/10 : ℚ) - 0 ∧ (11/10 : ℚ) - 0 ≤ 3/2) ∧
    ∀ c, createGaitCycle [] ⟨0, 0, Leg.left⟩ ⟨110, 11/10, Leg.left⟩ Leg.left = some c →
      c ∈ extractGaitCycles [] [⟨0, 0, Leg.left⟩, ⟨110, 11/10, Leg.left⟩] :=
  extractGaitCycles_duration_gate [] [⟨0, 0, Leg.left⟩, ⟨110, 11/10, Leg.left⟩]
    Leg.left 0 ⟨0, 0, Leg.left⟩ ⟨110, 11/10, Leg.left⟩
    (by with_unfolding_all decide) (by with_unfolding_all decide)

/-! ### Claim theorems: gait phase lookup -/

/-- C8: for `0 ≤ p ≤ 100`, `getPhaseAtPercent` returns exactly one phase,
namely the first catalog phase whose inclusive interval contains `p` (at a
shared boundary value both adjacent phases contain `p` and the earlier one
wins, e.g. 12 resolves to Loading Response); for `p < 0` or `p > 100` it
returns `null`. -/
theorem getPhaseAtPercent_first_match (p : ℚ) :
    (0 ≤ p → p ≤ 100 → ∃ pre post phase,
      STANDARD_PHASES = pre ++ phase :: post ∧
      getPhaseAtPercent p = some phase ∧ phaseContains phase p ∧
      ∀ q ∈ pre, ¬phaseContains q p) ∧
    (p < 0 ∨ 100 < p → getPhaseAtPercent p = none) := by
  constructor
  · intro h0 h100
    by_cases hb1 : p ≤ 2
    · refine ⟨([] : List GaitPhase), _, initialContactPhase, rfl, ?_,
        ⟨show (0 : ℚ) ≤ p by linarith, show p ≤ (2 : ℚ) by linarith⟩,
        fun q hq => absurd hq (List.not_mem_nil q)⟩
      · unfold getPhaseAtPercent STANDARD_PHASES
        have hpos : phasePred p initialContactPhase = true := by
          simp only [phasePred, initialContactPhase, Bool.and_eq_true, decide_eq_true_eq]
          exact ⟨by linarith, by linarith⟩
        exact List.find?_cons_of_pos _ hpos
    push_neg at hb1
    by_cases hb2 : p ≤ 12
    · refine ⟨[initialContactPhase], _, loadingResponsePhase, rfl, ?_,
        ⟨show (2 : ℚ) ≤ p by linarith, show p ≤ (12 : ℚ) by linarith⟩,
        fun q hq => ?_⟩
      · unfold getPhaseAtPercent STANDARD_PHASES
        have hneg0 : ¬phasePred p initialContactPhase = true := by
          simp only [phasePred, initialContactPhase, Bool.and_eq_true, decide_eq_true_eq, not_and]
          intro _ hle
          linarith
        have hpos : phasePred p loadingResponsePhase = true := by
          simp only [phasePred, loadingResponsePhase, Bool.and_eq_true, decide_eq_true_eq]
          exact ⟨by linarith, by linarith⟩
        rw [List.find?_cons_of_neg _ hneg0]
        exact List.find?_cons_of_pos _ hpos
      · have hbnd : ∀ r ∈ [initialContactPhase], r.endPercent ≤ (2 : ℚ) := by
          with_unfolding_all decide
        rintro ⟨-, hle⟩
        have := hbnd q hq
        linarith
    push_neg at hb2
    by_cases hb3 : p ≤ 31
    · refine ⟨[initialContactPhase, loadingResponsePhase], _, midStancePhase, rfl, ?_,
        ⟨show (12 : ℚ) ≤ p by linarith, show p ≤ (31 : ℚ) by linarith⟩,
        fun q hq => ?_⟩
      · unfold getPhaseAtPercent STANDARD_PHASES
        have hneg0 : ¬phasePred p initialContactPhase = true := by
          simp only [phasePred, initialContactPhase, Bool.and_eq_true, decide_eq_true_eq, not_and]
          intro _ hle
          linarith
        have hneg1 : ¬phasePred p loadingResponsePhase = true := by
          simp only [phasePred, loadingResponsePhase, Bool.and_eq_true, decide_eq_true_eq, not_and]
          intro _ hle
          linarith
        have hpos : phasePred p midStancePhase = true := by
          simp only [phasePred, midStancePhase, Bool.and_eq_true, decide_eq_true_eq]
          exact ⟨by linarith, by linarith⟩
        rw [List.find?_cons_of_neg _ hneg0, List.find?_cons_of_neg _ hneg1]
        exact List.find?_cons_of_pos _ hpos
      · have hbnd : ∀ r ∈ [initialContactPhase, loadingResponsePhase], r.endPercent ≤ (12 : ℚ) := by
          with_unfolding_all decide
        rintro ⟨-, hle⟩
        have := hbnd q hq
        linarith
    push_neg at hb3
    by_cases hb4 : p ≤ 50
    · refine ⟨[initialContactPhase, loadingResponsePhase, midStancePhase], _, terminalStancePhase, rfl, ?_,
        ⟨show (31 : ℚ) ≤ p by linarith, show p ≤ (50 : ℚ) by linarith⟩,
        fun q hq => ?_⟩
      · unfold getPhaseAtPercent STANDARD_PHASES
        have hneg0 : ¬phasePred p initialContactPhase = true := by
          simp only [phasePred, initialContactPhase, Bool.and_eq_true, decide_eq_true_eq, not_and]
          intro _ hle
          linarith
        have hneg1 : ¬phasePred p loadingResponsePhase = true := by
          simp only [phasePred, loadingResponsePhase, Bool.and_eq_true, decide_eq_true_eq, not_and]
          intro _ hle
          linarith
        have hneg2 : ¬phasePred p midStancePhase = true := by
          simp only [phasePred, midStancePhase, Bool.and_eq_true, decide_eq_true_eq, not_and]
          intro _ hle
          linarith
        have hpos : phasePred p terminalStancePhase = true := by
          simp only [phasePred, terminalStancePhase, Bool.and_eq_true, decide_eq_true_eq]
          exact ⟨by linarith, by linarith⟩
        rw [List.find?_cons_of_neg _ hneg0, List.find?_cons_of_neg _ hneg1, List.find?_cons_of_neg _ hneg2]
        exact List.find?_cons_of_pos _ hpos
      · have hbnd : ∀ r ∈ [initialContactPhase, loadingResponsePhase, midStancePhase], r.endPercent ≤ (31 : ℚ) := by
          with_unfolding_all decide
        rintro ⟨-, hle⟩
        have := hbnd q hq
        linarith
    push_neg at hb4
    by_cases hb5 : p ≤ 62
    · refine ⟨[initialContactPhase, loadingResponsePhase, midStancePhase, terminalStancePhase], _, preSwingPhase, rfl, ?_,
        ⟨show (50 : ℚ) ≤ p by linarith, show p ≤ (62 : ℚ) by linarith⟩,
        fun q hq => ?_⟩
      · unfold getPhaseAtPercent STANDARD_PHASES
        have hneg0 : ¬phasePred p initialContactPhase = true := by
          simp only [phasePred, initialContactPhase, Bool.and_eq_true, decide_eq_true_eq, not_and]
          intro _ hle
          linarith
        have hneg1 : ¬phasePred p loadingResponsePhase = true := by
          simp only [phasePred, loadingResponsePhase, Bool.and_eq_true, decide_eq_true_eq, not_and]
          intro _ hle
          linarith
        have hneg2 : ¬phasePred p midStancePhase = true := by
          simp only [phasePred, midStancePhase, Bool.and_eq_true, decide_eq_true_eq, not_and]
          intro _ hle
          linarith
        have hneg3 : ¬phasePred p terminalStancePhase = true := by
          simp only [phasePred, terminalStancePhase, Bool.and_eq_true, decide_eq_true_eq, not_and]
          intro _ hle
          linarith
        have hpos : phasePred p preSwingPhase = true := by
          simp only [phasePred, preSwingPhase, Bool.and_eq_true, decide_eq_true_eq]
          exact ⟨by linarith, by linarith⟩
        rw [List.find?_cons_of_neg _ hneg0, List.find?_cons_of_neg _ hneg1, List.find?_cons_of_neg _ hneg2, List.find?_cons_of_neg _ hneg3]
        exact List.find?_cons_of_pos _ hpos
      · have hbnd : ∀ r ∈ [initialContactPhase, loadingResponsePhase, midStancePhase, terminalStancePhase], r.endPercent ≤ (50 : ℚ) := by
          with_unfolding_all decide
        rintro ⟨-, hle⟩
        have := hbnd q hq
        linarith
    push_neg at hb5
    by_cases hb6 : p ≤ 75
    · refine ⟨[initialContactPhase, loadingResponsePhase, midStancePhase, terminalStancePhase, preSwingPhase], _, initialSwingPhase, rfl, ?_,
        ⟨show (62 : ℚ) ≤ p by linarith, show p ≤ (75 : ℚ) by linarith⟩,
        fun q hq => ?_⟩
      · unfold getPhaseAtPercent STANDARD_PHASES
        have hneg0 : ¬phasePred p initialContactPhase = true := by
          simp only [phasePred, initialContactPhase, Bool.and_eq_true, decide_eq_true_eq, not_and]
          intro _ hle
          linarith
        have hneg1 : ¬phasePred p loadingResponsePhase = true := by
          simp only [phasePred, loadingResponsePhase, Bool.and_eq_true, decide_eq_true_eq, not_and]
          intro _ hle
          linarith
        have hneg2 : ¬phasePred p midStancePhase = true := by
          simp only [phasePred, midStancePhase, Bool.and_eq_true, decide_eq_true_eq, not_and]
          intro _ hle
          linarith
        have hneg3 : ¬phasePred p terminalStancePhase = true := by
          simp only [phasePred, terminalStancePhase, Bool.and_eq_true, decide_eq_true_eq, not_and]
          intro _ hle
          linarith
        have hneg4 : ¬phasePred p preSwingPhase = true := by
          simp only [phasePred, preSwingPhase, Bool.and_eq_true, decide_eq_true_eq, not_and]
          intro _ hle
          linarith
        have hpos : phasePred p initialSwingPhase = true := by
          simp only [phasePred, initialSwingPhase, Bool.and_eq_true, decide_eq_true_eq]
          exact ⟨by linarith, by linarith⟩
        rw [List.find?_cons_of_neg _ hneg0, List.find?_cons_of_neg _ hneg1, List.find?_cons_of_neg _ hneg2, List.find?_cons_of_neg _ hneg3, List.find?_cons_of_neg _ hneg4]
        exact List.find?_cons_of_pos _ hpos
      · have hbnd : ∀ r ∈ [initialContactPhase, loadingResponsePhase, midStancePhase, terminalStancePhase, preSwingPhase], r.endPercent ≤ (62 : ℚ) := by
          with_unfolding_all decide
        rintro ⟨-, hle⟩
        have := hbnd q hq
        linarith
    push_neg at hb6
    by_cases hb7 : p ≤ 87
    · refine ⟨[initialContactPhase, loadingResponsePhase, midStancePhase, terminalStancePhase, preSwingPhase, initialSwingPhase], _, midSwingPhase, rfl, ?_,
        ⟨show (75 : ℚ) ≤ p by linarith, show p ≤ (87 : ℚ) by linarith⟩,
        fun q hq => ?_⟩
      · unfold getPhaseAtPercent STANDARD_PHASES
        have hneg0 : ¬phasePred p initialContactPhase = true := by
          simp only [phasePred, initialContactPhase, Bool.and_eq_true, decide_eq_true_eq, not_and]
          intro _ hle
          linarith
        have hneg1 : ¬phasePred p loadingResponsePhase = true := by
          simp only [phasePred, loadingResponsePhase, Bool.and_eq_true, decide_eq_true_eq, not_and]
          intro _ hle
          linarith
        have hneg2 : ¬phasePred p midStancePhase = true := by
          simp only [phasePred, midStancePhase, Bool.and_eq_true, decide_eq_true_eq, not_and]
          intro _ hle
          linarith
        have hneg3 : ¬phasePred p terminalStancePhase = true := by
          simp only [phasePred, terminalStancePhase, Bool.and_eq_true, decide_eq_true_eq, not_and]
          intro _ hle
          linarith
        have hneg4 : ¬phasePred p preSwingPhase = true := by
          simp only [phasePred, preSwingPhase, Bool.and_eq_true, decide_eq_true_eq, not_and]
          intro _ hle
          linarith
        have hneg5 : ¬phasePred p initialSwingPhase = true := by
          simp only [phasePred, initialSwingPhase, Bool.and_eq_true, decide_eq_true_eq, not_and]
          intro _ hle
          linarith
        have hpos : phasePred p midSwingPhase = true := by
          simp only [phasePred, midSwingPhase, Bool.and_eq_true, decide_eq_true_eq]
          exact ⟨by linarith, by linarith⟩
        rw [List.find?_cons_of_neg _ hneg0, List.find?_cons_of_neg _ hneg1, List.find?_cons_of_neg _ hneg2, List.find?_cons_of_neg _ hneg3, List.find?_cons_of_neg _ hneg4, List.find?_cons_of_neg _ hneg5]
        exact List.find?_cons_of_pos _ hpos
      · have hbnd : ∀ r ∈ [initialContactPhase, loadingResponsePhase, midStancePhase, terminalStancePhase, preSwingPhase, initialSwingPhase], r.endPercent ≤ (75 : ℚ) := by
          with_unfolding_all decide
        rintro ⟨-, hle⟩
        have := hbnd q hq
        linarith
    push_neg at hb7
    refine ⟨[initialContactPhase, loadingResponsePhase, midStancePhase, terminalStancePhase, preSwingPhase, initialSwingPhase, midSwingPhase], _, terminalSwingPhase, rfl, ?_,
      ⟨show (87 : ℚ) ≤ p by linarith, show p ≤ (100 : ℚ) by linarith⟩,
      fun q hq => ?_⟩
    · unfold getPhaseAtPercent STANDARD_PHASES
      have hneg0 : ¬phasePred p initialContactPhase = true := by
        simp only [phasePred, initialContactPhase, Bool.and_eq_true, decide_eq_true_eq, not_and]
        intro _ hle
        linarith
      have hneg1 : ¬phasePred p loadingResponsePhase = true := by
        simp only [phasePred, loadingResponsePhase, Bool.and_eq_true, decide_eq_true_eq, not_and]
        intro _ hle
        linarith
      have hneg2 : ¬phasePred p midStancePhase = true := by
        simp only [phasePred, midStancePhase, Bool.and_eq_true, decide_eq_true_eq, not_and]
        intro _ hle
        linarith
      have hneg3 : ¬phasePred p terminalStancePhase = true := by
        simp only [phasePred, terminalStancePhase, Bool.and_eq_true, decide_eq_true_eq, not_and]
        intro _ hle
        linarith
      have hneg4 : ¬phasePred p preSwingPhase = true := by
        simp only [phasePred, preSwingPhase, Bool.and_eq_true, decide_eq_true_eq, not_and]
        intro _ hle
        linarith
      have hneg5 : ¬phasePred p initialSwingPhase = true := by
        simp only [phasePred, initialSwingPhase, Bool.and_eq_true, decide_eq_true_eq, not_and]
        intro _ hle
        linarith
      have hneg6 : ¬phasePred p midSwingPhase = true := by
        simp only [phasePred, midSwingPhase, Bool.and_eq_true, decide_eq_true_eq, not_and]
        intro _ hle
        linarith
      have hpos : phasePred p terminalSwingPhase = true := by
        simp only [phasePred, terminalSwingPhase, Bool.and_eq_true, decide_eq_true_eq]
        exact ⟨by linarith, by linarith⟩
      rw [List.find?_cons_of_neg _ hneg0, List.find?_cons_of_neg _ hneg1, List.find?_cons_of_neg _ hneg2, List.find?_cons_of_neg _ hneg3, List.find?_cons_of_neg _ hneg4, List.find?_cons_of_neg _ hneg5, List.find?_cons_of_neg _ hneg6]
      exact List.find?_cons_of_pos _ hpos
    · have hbnd : ∀ r ∈ [initialContactPhase, loadingResponsePhase, midStancePhase, terminalStancePhase, preSwingPhase, initialSwingPhase, midSwingPhase], r.endPercent ≤ (87 : ℚ) := by
        with_unfolding_all decide
      rintro ⟨-, hle⟩
      have := hbnd q hq
      linarith
  · intro h
    have hall : ∀ r ∈ STANDARD_PHASES, 0 ≤ r.startPercent ∧ r.endPercent ≤ 100 := by
      with_unfolding_all decide
    unfold getPhaseAtPercent
    rw [List.find?_eq_none]
    intro q hq
    simp only [phasePred, Bool.and_eq_true, decide_eq_true_eq, not_and]
    intro hsp hpe
    rcases h with h | h
    · linarith [(hall q hq).1]
    · linarith [(hall q hq).2]

/-- C8 witness: at the shared boundary 12 the lookup resolves to exactly one
phase, and the out-of-range percent -1 gives `null`. -/
theorem getPhaseAtPercent_first_match_witness :
    (∃ pre post phase,
      STANDARD_PHASES = pre ++ phase :: post ∧
      getPhaseAtPercent 12 = some phase ∧ phaseContains phase 12 ∧
      ∀ q ∈ pre, ¬phaseContains q 12) ∧
    getPhaseAtPercent (-1) = none :=
  ⟨(getPhaseAtPercent_first_match 12).1 (by norm_num) (by norm_num),
   (getPhaseAtPercent_first_match (-1)).2 (Or.inl (by norm_num))⟩
